import Mathlib

/-
  Verification development for the maestro deployment bot
  (source: src/maestro/routers/deploy.py, src/maestro/routers/start.py).

  The Python handlers are embedded shallowly: every chat / SSH side effect
  becomes an `Event` appended to a trace, and exceptions become `Except.error`,
  via the writer/except monad `DM`.  The behaviour of the external
  collaborators (the chat transport, the SSH transport, the text renderer)
  is a parameter `Behavior`.  Python `dict`s (insertion ordered, unique keys)
  are embedded as association lists, `dict.get` as first-match lookup.
-/

set_option autoImplicit false
set_option linter.unusedVariables false

namespace Maestro

/-- An action of a server: `maestro.config.Action` (fields as used by
`deploy.py`: `name`, `command`, `description`). -/
structure Action where
  name : String
  command : String
  description : Option String
  deriving DecidableEq

/-- A server: `maestro.config.Server` (fields as used by `deploy.py`:
`name`, `allowed_chat_ids`, `actions` dict, `allow_run_all`).  Connection
credentials are irrelevant to the embedded logic and omitted. -/
structure Server where
  name : String
  allowed_chat_ids : List Int
  actions : List (String × Action)
  allow_run_all : Bool
  deriving DecidableEq

/-- The registry: `maestro.config.Config` (global `allowed_chat_ids` plus the
`servers` dict). -/
structure Config where
  allowed_chat_ids : List Int
  servers : List (String × Server)
  deriving DecidableEq

/-- Python `dict.get key`: first binding of the key in the association list. -/
def dictGet {α : Type} (d : List (String × α)) (k : String) : Option α :=
  (d.find? (fun p => p.1 = k)).map (fun p => p.2)

/-- The access-control predicate of §4.1, exactly the expression repeated at
`deploy.py` lines 57-59, 182 and 238:
`chat_id in config.allowed_chat_ids or chat_id in server.allowed_chat_ids`. -/
def isAllowed (cfg : Config) (chat_id : Int) (server : Server) : Bool :=
  cfg.allowed_chat_ids.contains chat_id || server.allowed_chat_ids.contains chat_id

/-- A document attachment: file name and file content.  `text_to_png` is the
pure external renderer, so a png is embedded as its source text; the
timestamp that `run_action` puts in the png file name is dropped (it is a
clock read, irrelevant to every claim). -/
abbrev Doc := String × String

/-- One observable side effect of a handler.  Chat-transport events record a
*successful* platform call (a failed call raises instead and leaves no
event); `execCmd` records the remote invocation attempt itself. -/
inductive Event where
  | reply (text : String) (keyboard : List (List (String × String)))
  | editText (msgId : Nat) (text : String) (keyboard : List (List (String × String)))
  | sendMessage (text : String) (keyboard : List (List (String × String)))
  | sendMediaGroup (caption : Option String) (docs : List Doc)
  | editMedia (msgId : Nat) (doc : Doc) (caption : Option String)
  | editCaption (msgId : Nat) (caption : String)
  | deleteMsg (msgId : Nat)
  | answerCb (text : Option String) (alert : Bool)
  | connect (server : Server)
  | execCmd (server : Server) (command : String)
  | closeConn (server : Server)
  deriving DecidableEq

deriving instance DecidableEq for Except

/-- Writer/except monad for the embedded handlers: the list of events emitted
so far, and either a value or the message of an uncaught Python exception. -/
structure DM (α : Type) where
  events : List Event
  result : Except String α
  deriving DecidableEq

def DM.pure {α : Type} (a : α) : DM α := ⟨[], .ok a⟩

def DM.bind {α β : Type} (x : DM α) (k : α → DM β) : DM β :=
  match x.result with
  | .ok a => ⟨x.events ++ (k a).events, (k a).result⟩
  | .error e => ⟨x.events, .error e⟩

instance : Monad DM where
  pure := DM.pure
  bind := DM.bind

/-- Emit one event. -/
def DM.emit (e : Event) : DM Unit := ⟨[e], .ok ()⟩

/-- Raise a Python exception with the given message. -/
def DM.fail {α : Type} (msg : String) : DM α := ⟨[], .error msg⟩

/-- Python `try: x except Exception as e: h e` — effects performed before the
raise are kept. -/
def DM.tryCatch {α : Type} (x : DM α) (h : String → DM α) : DM α :=
  match x.result with
  | .ok _ => x
  | .error e => ⟨x.events ++ (h e).events, (h e).result⟩

/-- Python `try: x except Exception: pass`. -/
def DM.tryIgnore (x : DM Unit) : DM Unit := DM.tryCatch x (fun _ => DM.pure ())

/-- Sequence a monadic function over a list collecting results in input
order (the result-collection shape of `asyncio.gather`; its completion-order
independence is proved separately on the slot model `asyncGatherSlots`). -/
def DM.mapList {α β : Type} (f : α → DM β) : List α → DM (List β)
  | [] => DM.pure []
  | a :: as => DM.bind (f a) (fun b => DM.bind (DM.mapList f as) (fun bs => DM.pure (b :: bs)))

/-- Python `for a in as: f a` (result discarded). -/
def DM.forList {α : Type} (f : α → DM Unit) : List α → DM Unit
  | [] => DM.pure ()
  | a :: as => DM.bind (f a) (fun _ => DM.forList f as)

/-- Behaviour of the external collaborators for one request: whether each
platform call succeeds, the remote command results, and the message handles
the transport assigns to the placeholder media group. -/
structure Behavior where
  connectOk : Server → Bool
  execResult : Server → Action → Except String String
  editMediaOk : Nat → Bool
  editCaptionOk : Nat → Bool
  deleteOk : Nat → Bool
  sendGroupOk : Bool
  sendMessageOk : Bool
  placeholderIds : List Nat

/-- `bot.edit_message_media`: fails with a platform error when the transport
rejects the edit. -/
def opEditMedia (b : Behavior) (mid : Nat) (doc : Doc) (cap : Option String) : DM Unit :=
  if b.editMediaOk mid then DM.emit (.editMedia mid doc cap) else DM.fail "EditError"

/-- `bot.edit_message_caption`. -/
def opEditCaption (b : Behavior) (mid : Nat) (cap : String) : DM Unit :=
  if b.editCaptionOk mid then DM.emit (.editCaption mid cap) else DM.fail "EditError"

/-- `message.delete`. -/
def opDelete (b : Behavior) (mid : Nat) : DM Unit :=
  if b.deleteOk mid then DM.emit (.deleteMsg mid) else DM.fail "DeleteError"

/-- `bot.send_media_group` / `reply_media_group`. -/
def opSendGroup (b : Behavior) (cap : Option String) (docs : List Doc) : DM Unit :=
  if b.sendGroupOk then DM.emit (.sendMediaGroup cap docs) else DM.fail "SendError"

/-- `bot.send_message`. -/
def opSendMessage (b : Behavior) (text : String) (kb : List (List (String × String))) : DM Unit :=
  if b.sendMessageOk then DM.emit (.sendMessage text kb) else DM.fail "SendError"

/-- `maestro.ssh_client.connect_to_server` (external collaborator): records
the connection attempt; raises when the behaviour says the connection
fails. -/
def connect_to_server (b : Behavior) (server : Server) : DM Unit :=
  DM.bind (DM.emit (.connect server))
    (fun _ => if b.connectOk server then DM.pure () else DM.fail "connection error")

/-- `run_action` (deploy.py lines 24-38): open a connection, run the command,
read combined stdout/stderr, close the connection, build the txt and png
files.  A raise from `exec_command` or the reads skips `client.close()`.
Returns `(txt_file, png_file)` like the source. -/
def run_action (b : Behavior) (server : Server) (action : Action) : DM (Doc × Doc) := do
  connect_to_server b server
  DM.emit (.execCmd server action.command)
  match b.execResult server action with
  | .error e => DM.fail e
  | .ok text => do
    DM.emit (.closeConn server)
    let png_file : Doc := ("deploy_result_" ++ action.name ++ ".png", text)
    let txt_file : Doc := ("output.txt", text)
    DM.pure (txt_file, png_file)

/-- `deploy_use_case` (deploy.py lines 440-458): reply with a progress line,
run the action synchronously, send the result media group. -/
def deploy_use_case (b : Behavior) (server : Server) (action : Action) : DM Unit := do
  DM.emit (.reply ("Running action " ++ action.name ++ " on " ++ server.name ++ "...") [])
  let r ← run_action b server action
  opSendGroup b (some ("Result of action " ++ action.name ++ " on " ++ server.name))
    [r.2, r.1]

/-- The call `deploy_use_case(message, server_obj, action_obj)` as made by the
direct-command loop, whose `action_obj` may be Python `None` (then the
f-string `action.name` raises `AttributeError`). -/
def deploy_use_case_py (b : Behavior) (server : Server) : Option Action → DM Unit
  | none => DM.fail "AttributeError: NoneType object has no attribute name"
  | some a => deploy_use_case b server a

/-- Python `s.split(sep, maxsplit)` on a character list: at most `fuel`
splits, remainder kept whole once the budget is spent. -/
def pySplitAux (sep : Char) : List Char → Nat → List Char → List (List Char)
  | [], _, acc => [acc.reverse]
  | rest, 0, acc => [acc.reverse ++ rest]
  | c :: cs, Nat.succ n, acc =>
    if c = sep then acc.reverse :: pySplitAux sep cs n []
    else pySplitAux sep cs (Nat.succ n) (c :: acc)

/-- `callback.data.split(":", 3)` (deploy.py line 81). -/
def pySplitColon3 (s : String) : List String :=
  (pySplitAux ':' s.data 3 []).map (fun cs => String.mk cs)

/-- Helper for `pyWsSplit`: split a character list on whitespace runs. -/
def wsSplitAux : List Char → List Char → List String
  | [], acc => if acc.isEmpty then [] else [String.mk acc.reverse]
  | c :: cs, acc =>
    if c.isWhitespace then
      if acc.isEmpty then wsSplitAux cs []
      else String.mk acc.reverse :: wsSplitAux cs []
    else wsSplitAux cs (c :: acc)

/-- Python `(command.args or "").split()`: split on whitespace runs,
discarding empty fields. -/
def pyWsSplit (s : Option String) : List String :=
  wsSplitAux (s.getD "").data []

/-- Python `sep.join xs`. -/
def joinSep (sep : String) : List String → String
  | [] => ""
  | [x] => x
  | x :: y :: xs => x ++ sep ++ joinSep sep (y :: xs)

/-- One keyboard row of the action list (deploy.py lines 192-205): the
button text is the action key plus its description, truncated past 60
characters; the callback token selects that action. -/
def actionRow (server_name : String) (p : String × Action) : List (String × String) :=
  let description := match p.2.description with
    | some d => ": " ++ d
    | none => ""
  let button_text := p.1 ++ description
  let button_text :=
    if button_text.length > 60 then String.mk (button_text.data.take 57) ++ "..." else button_text
  [(button_text, "deploy:action:" ++ server_name ++ ":" ++ p.1)]

/-- The `buttons` list built by `show_action_selection` (deploy.py lines
191-219): one row per configured action, a synthetic Run-All row when
`allow_run_all`, and the Back row. -/
def action_selection_buttons (server_name : String) (server : Server) :
    List (List (String × String)) :=
  server.actions.map (actionRow server_name)
  ++ (if server.allow_run_all then
        [[("Run All Actions", "deploy:action:" ++ server_name ++ ":all")]]
      else [])
  ++ [[("Back to Servers", "deploy:menu")]]

/-- `show_action_selection` (deploy.py lines 164-226). -/
def show_action_selection (b : Behavior) (cfg : Config) (chat_id : Int) (mid : Nat)
    (server_name : String) (is_callback : Bool) : DM Unit :=
  match dictGet cfg.servers server_name with
  | none =>
    if is_callback then DM.emit (.editText mid "Server not found" [])
    else DM.emit (.reply "Server not found" [])
  | some server =>
    let allowed := cfg.allowed_chat_ids.contains chat_id
      || server.allowed_chat_ids.contains chat_id
    if !allowed then
      if is_callback then DM.emit (.editText mid "You are not allowed to deploy to this server" [])
      else DM.emit (.reply "You are not allowed to deploy to this server" [])
    else
      let keyboard := action_selection_buttons server_name server
      let text := "Select an action for server **" ++ server_name ++ "**:"
      if is_callback then DM.emit (.editText mid text keyboard)
      else DM.emit (.reply text keyboard)

/-- `show_server_selection` (deploy.py lines 107-161).  The `return_message`
plumbing is dropped: every caller in the repository discards the returned
message. -/
def show_server_selection (b : Behavior) (cfg : Config) (chat_id : Int) (mid : Nat)
    (is_callback : Bool) (standalone : Bool) (auto_select_single : Bool) : DM Unit :=
  let allowed := cfg.allowed_chat_ids.contains chat_id
  let accessible_servers := cfg.servers.filter
    (fun p => allowed || p.2.allowed_chat_ids.contains chat_id)
  let buttons := accessible_servers.map (fun p => [(p.1, "deploy:server:" ++ p.1)])
  if buttons.isEmpty then
    if is_callback then DM.emit (.editText mid "You don\x27t have access to any servers." [])
    else DM.emit (.reply "You don\x27t have access to any servers." [])
  else if auto_select_single && accessible_servers.length = 1 then
    match accessible_servers with
    | p :: _ => show_action_selection b cfg chat_id mid p.1 is_callback
    | [] => DM.pure ()
  else
    let text := "Select a server:"
    if is_callback then DM.emit (.editText mid text buttons)
    else if standalone then opSendMessage b text buttons
    else DM.emit (.reply text buttons)

/-- `handle_command_deploy` (deploy.py lines 41-75) after argument
splitting.  Note the source guard `if not actions and action != "all"`:
`actions` is the non-empty list `[server_obj.actions.get(action)]`, so the
guard never fires and an unknown action reaches `deploy_use_case` as `None`. -/
def handle_command_deploy_args (b : Behavior) (cfg : Config) (chat_id : Int) (mid : Nat)
    (args : List String) : DM Unit :=
  if args.length = 2 then
    let server := args.getD 0 ""
    let action := args.getD 1 ""
    match dictGet cfg.servers server with
    | none => DM.emit (.reply "Server not found" [])
    | some server_obj =>
      let allowed := cfg.allowed_chat_ids.contains chat_id
        || server_obj.allowed_chat_ids.contains chat_id
      if !allowed then DM.emit (.reply "You are not allowed to deploy to this server" [])
      else
        let actions : List (Option Action) := [dictGet server_obj.actions action]
        if actions.isEmpty && action ≠ "all" then DM.emit (.reply "Action not found" [])
        else
          let actions := if action = "all" then server_obj.actions.map (fun p => some p.2)
            else actions
          DM.forList (deploy_use_case_py b server_obj) actions
  else
    show_server_selection b cfg chat_id mid false false true

/-- `handle_command_deploy` on the raw argument string. -/
def handle_command_deploy (b : Behavior) (cfg : Config) (chat_id : Int) (mid : Nat)
    (argsRaw : Option String) : DM Unit :=
  handle_command_deploy_args b cfg chat_id mid (pyWsSplit argsRaw)

/-- Per-action result tuple of `run_single_action`
(`(png_file, txt_file, action, error)`, deploy.py lines 311-316). -/
structure SingleRes where
  png : Option Doc
  txt : Option Doc
  action : Action
  error : Option String
  deriving DecidableEq

/-- `run_single_action` (deploy.py lines 311-316): run the action in a worker
thread, catching any exception into the per-action error slot. -/
def run_single_action (b : Behavior) (server : Server) (action : Action) : DM SingleRes :=
  DM.tryCatch
    (DM.bind (run_action b server action)
      (fun r => DM.pure ⟨some r.2, some r.1, action, none⟩))
    (fun e => DM.pure ⟨none, none, action, some e⟩)

/-- The result-processing loop of `run_deployment_async` (deploy.py lines
322-330), producing `(results, errors, all_media_data)` in input order. -/
def processResults : List SingleRes → List String × List String × List (Doc × Doc × Action)
  | [] => ([], [], [])
  | r :: rs =>
    let rest := processResults rs
    match r.error with
    | some e =>
      ((r.action.name ++ ": " ++ e) :: rest.1, (r.action.name ++ ": " ++ e) :: rest.2.1, rest.2.2)
    | none =>
      (r.action.name :: rest.1, rest.2.1,
        (r.png.getD ("", ""), r.txt.getD ("", ""), r.action) :: rest.2.2)

/-- `run_deployment_async` (deploy.py lines 295-437). -/
def run_deployment_async (b : Behavior) (progress_msg : Option Nat)
    (placeholder_msgs : List Nat) (server : Server) (actions : List Action)
    (server_name : String) : DM Unit :=
  if progress_msg.isNone || placeholder_msgs.isEmpty then DM.pure ()
  else do
    let action_results ← DM.mapList (run_single_action b server) actions
    let processed := processResults action_results
    let errors := processed.2.1
    let all_media_data := processed.2.2
    let p0 := placeholder_msgs.getD 0 0
    let p1 := placeholder_msgs.getD 1 0
    if !all_media_data.isEmpty && placeholder_msgs.length ≥ 2 then
      if all_media_data.length = 1 && actions.length = 1 then
        match all_media_data with
        | (png_file, txt_file, action) :: _ =>
          let result_text := "Result of action " ++ action.name ++ " on " ++ server_name
          DM.tryCatch
            (do
              opEditMedia b p0 png_file (some result_text)
              opEditMedia b p1 txt_file none)
            (fun _ => do
              DM.forList (fun mid => DM.tryIgnore (opDelete b mid)) placeholder_msgs
              opSendGroup b (some result_text) [png_file, txt_file])
        | [] => DM.pure ()
      else do
        (match all_media_data with
          | (fp, ft, first_action) :: _ =>
            let first_caption := "Result of action " ++ first_action.name ++ " on " ++ server.name
            DM.tryIgnore (opEditCaption b p0 first_caption)
          | [] => DM.pure ())
        DM.forList
          (fun t =>
            DM.tryIgnore
              (opSendGroup b (some ("Result of action " ++ t.2.2.name ++ " on " ++ server.name))
                [t.1, t.2.1]))
          (all_media_data.drop 1)
    else
      let error_caption :=
        match actions with
        | first_action :: _ =>
          "Result of action " ++ first_action.name ++ " on " ++ server_name ++
            (if !errors.isEmpty then "\n\nErrors:\n" ++ joinSep "\n" errors else "")
        | [] => "Result on " ++ server_name
      DM.tryCatch (opEditCaption b p0 error_caption)
        (fun _ => do
          DM.forList (fun mid => DM.tryIgnore (opDelete b mid)) placeholder_msgs
          opSendMessage b error_caption [])

/-- `execute_deployment` (deploy.py lines 229-292): resolve server and
action(s) behind the access gate, send the two-attachment placeholder group,
best-effort delete the menu message, re-render the server menu standalone,
then run `run_deployment_async` (spawned with `asyncio.create_task`; its
trace is appended here as the task runs to completion). -/
def execute_deployment (b : Behavior) (cfg : Config) (chat_id : Int) (mid : Nat)
    (server_name : String) (action_name : String) : DM Unit :=
  match dictGet cfg.servers server_name with
  | none => DM.emit (.reply "Server not found" [])
  | some server =>
    let allowed := cfg.allowed_chat_ids.contains chat_id
      || server.allowed_chat_ids.contains chat_id
    if !allowed then DM.emit (.reply "You are not allowed to deploy to this server" [])
    else
      let actionsOpt : Option (List Action) :=
        if action_name = "all" then some (server.actions.map (fun p => p.2))
        else (dictGet server.actions action_name).map (fun a => [a])
      match actionsOpt with
      | none => DM.emit (.reply "Action not found" [])
      | some actions => do
        let action_list := joinSep ", " (actions.map (fun a => a.name))
        let progress_text := "Running: " ++ action_list ++ " on " ++ server_name ++ "..."
        let placeholder_png : Doc := ("placeholder.png", "Loading results...")
        let placeholder_txt : Doc := ("placeholder.txt", "Loading...")
        opSendGroup b (some progress_text) [placeholder_png, placeholder_txt]
        let placeholder_msgs := b.placeholderIds
        let progress_msg := placeholder_msgs.head?
        DM.tryIgnore (opDelete b mid)
        match progress_msg with
        | none =>
          -- `show_server_selection(None, ...)`: first use of the handle raises
          DM.fail "AttributeError: NoneType object has no attribute reply"
        | some pm => do
          show_server_selection b cfg chat_id pm false true false
          run_deployment_async b progress_msg placeholder_msgs server actions server_name

/-- `handle_deploy_callback` (deploy.py lines 78-104). -/
def handle_deploy_callback (b : Behavior) (cfg : Config) (chat_id : Int) (mid : Nat)
    (data : String) : DM Unit :=
  let parts := pySplitColon3 data
  if parts.length < 2 then DM.emit (.answerCb (some "Invalid callback data") true)
  else if parts.getD 1 "" = "menu" then do
    show_server_selection b cfg chat_id mid true false false
    DM.emit (.answerCb none false)
  else if parts.getD 1 "" = "server" && parts.length ≥ 3 then do
    show_action_selection b cfg chat_id mid (parts.getD 2 "") true
    DM.emit (.answerCb none false)
  else if parts.getD 1 "" = "action" && parts.length ≥ 4 then do
    execute_deployment b cfg chat_id mid (parts.getD 2 "") (parts.getD 3 "")
    DM.emit (.answerCb none false)
  else DM.emit (.answerCb (some "Unknown action") true)

/-- Slot writes of `asyncio.gather`: the tasks complete in the order given by
`sched` (a completion schedule over task indices); each completion writes the
outcome of *its own* index into its own slot. -/
def gatherFoldAux {α : Type} (outs : List α) : List Nat → (Nat → Option α) → Nat → Option α
  | [], acc => acc
  | i :: rest, acc => gatherFoldAux outs rest (fun j => if j = i then outs[i]? else acc j)

/-- Final slot assignment after all completions in `sched`. -/
def gatherWrites {α : Type} (outs : List α) (sched : List Nat) : Nat → Option α :=
  gatherFoldAux outs sched (fun _ => none)

/-- The list `asyncio.gather` returns: slots read back in input order,
whatever the completion order was. -/
def asyncGatherSlots {α : Type} (outs : List α) (sched : List Nat) : List (Option α) :=
  (List.range outs.length).map (gatherWrites outs sched)

/-- One chat message as the requester sees it: its handle (when it is one of
the placeholder messages), its caption or plain text, and its document
attachments.  Telegram shows the caption of a media group on its first
message, so `sentGroupMsgs` puts the caption on the first document. -/
structure ChatMsg where
  id : Option Nat
  caption : Option String
  text : Option String
  docs : List Doc
  deriving DecidableEq

/-- Messages created by one `send_media_group` call. -/
def sentGroupMsgs (cap : Option String) (docs : List Doc) : List ChatMsg :=
  match docs with
  | [] => []
  | d :: rest => ⟨none, cap, none, [d]⟩ :: rest.map (fun d2 => ⟨none, none, none, [d2]⟩)

/-- Effect of one (successful) chat-transport event on the visible chat. -/
def applyEvent (st : List ChatMsg) : Event → List ChatMsg
  | .sendMediaGroup cap docs => st ++ sentGroupMsgs cap docs
  | .sendMessage t _ => st ++ [⟨none, none, some t, []⟩]
  | .reply t _ => st ++ [⟨none, none, some t, []⟩]
  | .editText mid t _ =>
    st.map (fun m => if m.id = some mid then { m with text := some t } else m)
  | .editCaption mid c =>
    st.map (fun m => if m.id = some mid then { m with caption := some c } else m)
  | .editMedia mid d cap =>
    st.map (fun m => if m.id = some mid then { m with docs := [d], caption := cap } else m)
  | .deleteMsg mid => st.filter (fun m => m.id ≠ some mid)
  | _ => st

/-- The visible chat after a trace of events. -/
def applyEvents (st : List ChatMsg) (evs : List Event) : List ChatMsg :=
  evs.foldl applyEvent st

/-- `pat.data` occurs as a contiguous sublist. -/
def containsChars (pat : List Char) : List Char → Bool
  | [] => pat.isEmpty
  | c :: cs => pat.isPrefixOf (c :: cs) || containsChars pat cs

/-- `pat` occurs as a substring of `s`. -/
def containsStr (s pat : String) : Bool := containsChars pat.data s.data

/-- Some user-visible string of the message (caption, text, or a document
name or content) mentions `pat`. -/
def msgMentions (m : ChatMsg) (pat : String) : Bool :=
  (match m.caption with | some c => containsStr c pat | none => false)
  || (match m.text with | some t => containsStr t pat | none => false)
  || m.docs.any (fun d => containsStr d.1 pat || containsStr d.2 pat)

/-- Some visible message mentions `pat`. -/
def stateMentions (st : List ChatMsg) (pat : String) : Bool :=
  st.any (fun m => msgMentions m pat)

/-! ### Concrete sample data for counterexamples and witnesses -/

/-- Sample action. -/
def actA : Action := ⟨"alpha", "cmd-alpha", none⟩

/-- Sample action. -/
def actB : Action := ⟨"bravo", "cmd-bravo", none⟩

/-- Sample action. -/
def actC : Action := ⟨"charlie", "cmd-charlie", none⟩

/-- Sample server with three actions and `allow_run_all = false`. -/
def srvS : Server := ⟨"s", [], [("alpha", actA), ("bravo", actB), ("charlie", actC)], false⟩

/-- Sample registry: chat 1 is a global operator. -/
def cfgS : Config := ⟨[1], [("s", srvS)]⟩

/-- Collaborator behaviour where every platform call succeeds and every
remote command prints `out-<action>`. -/
def bOk : Behavior where
  connectOk := fun _ => true
  execResult := fun _ a => .ok ("out-" ++ a.name)
  editMediaOk := fun _ => true
  editCaptionOk := fun _ => true
  deleteOk := fun _ => true
  sendGroupOk := true
  sendMessageOk := true
  placeholderIds := [10, 11]

/-- Behaviour like `bOk` except that the remote command of `bravo` raises. -/
def bBravoFails : Behavior :=
  { bOk with execResult := fun _ a => if a.name = "bravo" then .error "boom" else .ok ("out-" ++ a.name) }

/-! ### Basic lemmas about the effect monad -/

@[simp] lemma DM.bind_eq_def {α β : Type} : @Bind.bind DM _ α β = DM.bind := rfl

@[simp] lemma DM.pure_eq_def {α : Type} : (Pure.pure : α → DM α) = DM.pure := rfl

@[simp] lemma DM.bind_mk_ok {α β : Type} (es : List Event) (a : α) (k : α → DM β) :
    DM.bind ⟨es, .ok a⟩ k = ⟨es ++ (k a).events, (k a).result⟩ := rfl

@[simp] lemma DM.bind_mk_err {α β : Type} (es : List Event) (e : String) (k : α → DM β) :
    DM.bind ⟨es, .error e⟩ k = ⟨es, .error e⟩ := rfl

@[simp] lemma DM.tryCatch_mk_ok {α : Type} (es : List Event) (a : α) (h : String → DM α) :
    DM.tryCatch ⟨es, .ok a⟩ h = ⟨es, .ok a⟩ := rfl

@[simp] lemma DM.tryCatch_mk_err {α : Type} (es : List Event) (e : String) (h : String → DM α) :
    DM.tryCatch ⟨es, .error e⟩ h = ⟨es ++ (h e).events, (h e).result⟩ := rfl

@[simp] lemma DM.events_mk {α : Type} (es : List Event) (r : Except String α) :
    (DM.mk es r).events = es := rfl

@[simp] lemma DM.result_mk {α : Type} (es : List Event) (r : Except String α) :
    (DM.mk es r).result = r := rfl

@[simp] lemma DM.pure_def {α : Type} (a : α) : (DM.pure a : DM α) = ⟨[], .ok a⟩ := rfl

@[simp] lemma DM.emit_def (e : Event) : DM.emit e = ⟨[e], .ok ()⟩ := rfl

@[simp] lemma DM.fail_def {α : Type} (m : String) : (DM.fail m : DM α) = ⟨[], .error m⟩ := rfl

/-- Events and value of `run_single_action`, as pure functions. -/
def runSingleEvents (b : Behavior) (server : Server) (a : Action) : List Event :=
  if b.connectOk server then
    match b.execResult server a with
    | .ok _ => [.connect server, .execCmd server a.command, .closeConn server]
    | .error _ => [.connect server, .execCmd server a.command]
  else [.connect server]

/-- The per-action outcome `run_single_action` computes. -/
def runSingleValue (b : Behavior) (server : Server) (a : Action) : SingleRes :=
  if b.connectOk server then
    match b.execResult server a with
    | .ok out => ⟨some ("deploy_result_" ++ a.name ++ ".png", out), some ("output.txt", out), a, none⟩
    | .error e => ⟨none, none, a, some e⟩
  else ⟨none, none, a, some "connection error"⟩

lemma run_single_action_eq (b : Behavior) (server : Server) (a : Action) :
    run_single_action b server a = ⟨runSingleEvents b server a, .ok (runSingleValue b server a)⟩ := by
  unfold run_single_action run_action connect_to_server runSingleEvents runSingleValue
  cases hc : b.connectOk server <;> simp [hc]
  cases he : b.execResult server a <;> simp [he, DM.bind, DM.tryCatch]

/-- `DM.mapList` of a function with no failure: events concatenate in input
order, results line up with the input list. -/
lemma DM.mapList_pure {α β : Type} (f : α → DM β) (E : α → List Event) (v : α → β)
    (xs : List α) (hf : ∀ a ∈ xs, f a = ⟨E a, .ok (v a)⟩) :
    DM.mapList f xs = ⟨xs.flatMap E, .ok (xs.map v)⟩ := by
  induction xs with
  | nil => simp [DM.mapList]
  | cons a as ih =>
    rw [DM.mapList, hf a (by simp), ih (fun x hx => hf x (by simp [hx]))]
    simp

/-- `DM.forList` of a function with no failure. -/
lemma DM.forList_pure {α : Type} (f : α → DM Unit) (E : α → List Event)
    (xs : List α) (hf : ∀ a ∈ xs, f a = ⟨E a, .ok ()⟩) :
    DM.forList f xs = ⟨xs.flatMap E, .ok ()⟩ := by
  induction xs with
  | nil => simp [DM.forList]
  | cons a as ih =>
    rw [DM.forList, hf a (by simp), ih (fun x hx => hf x (by simp [hx]))]
    simp

/-- Closed form of `run_action`. -/
lemma run_action_eq (b : Behavior) (srv : Server) (a : Action) :
    run_action b srv a =
      if b.connectOk srv then
        match b.execResult srv a with
        | .ok out =>
          ⟨[.connect srv, .execCmd srv a.command, .closeConn srv],
            .ok (("output.txt", out), ("deploy_result_" ++ a.name ++ ".png", out))⟩
        | .error e => ⟨[.connect srv, .execCmd srv a.command], .error e⟩
      else ⟨[.connect srv], .error "connection error"⟩ := by
  unfold run_action connect_to_server
  cases hc : b.connectOk srv <;> simp [hc]
  cases he : b.execResult srv a <;> simp [he, DM.bind]

/-- Events of `deploy_use_case` as a pure function of the behaviour. -/
def deployUseCaseEvents (b : Behavior) (srv : Server) (a : Action) : List Event :=
  .reply ("Running action " ++ a.name ++ " on " ++ srv.name ++ "...") [] ::
  (if b.connectOk srv then
    match b.execResult srv a with
    | .ok out =>
      [.connect srv, .execCmd srv a.command, .closeConn srv] ++
        (if b.sendGroupOk then
          [.sendMediaGroup (some ("Result of action " ++ a.name ++ " on " ++ srv.name))
            [("deploy_result_" ++ a.name ++ ".png", out), ("output.txt", out)]]
        else [])
    | .error _ => [.connect srv, .execCmd srv a.command]
  else [.connect srv])

lemma deploy_use_case_events (b : Behavior) (srv : Server) (a : Action) :
    (deploy_use_case b srv a).events = deployUseCaseEvents b srv a := by
  unfold deploy_use_case deployUseCaseEvents
  rw [show (DM.emit (.reply ("Running action " ++ a.name ++ " on " ++ srv.name ++ "...") []) : DM Unit)
      = ⟨[.reply ("Running action " ++ a.name ++ " on " ++ srv.name ++ "...") []], .ok ()⟩ from rfl]
  simp [run_action_eq]
  cases hc : b.connectOk srv <;> simp [hc]
  cases he : b.execResult srv a <;> simp [he, opSendGroup]
  cases hs : b.sendGroupOk <;> simp [hs]

/-- All events of `x` satisfy `P`. -/
def EvPred (P : Event → Prop) {α : Type} (x : DM α) : Prop :=
  ∀ e ∈ x.events, P e

lemma EvPred.ofBind {P : Event → Prop} {α β : Type} {x : DM α} {k : α → DM β}
    (hx : EvPred P x) (hk : ∀ a, EvPred P (k a)) : EvPred P (DM.bind x k) := by
  intro e he
  unfold DM.bind at he
  cases h : x.result with
  | ok a =>
    rw [h] at he
    simp at he
    rcases he with he | he
    · exact hx e he
    · exact hk a e he
  | error m =>
    rw [h] at he
    exact hx e he

lemma EvPred.ofTryCatch {P : Event → Prop} {α : Type} {x : DM α} {h : String → DM α}
    (hx : EvPred P x) (hh : ∀ m, EvPred P (h m)) : EvPred P (DM.tryCatch x h) := by
  intro e he
  unfold DM.tryCatch at he
  cases hr : x.result with
  | ok a => rw [hr] at he; exact hx e he
  | error m =>
    rw [hr] at he
    simp at he
    rcases he with he | he
    · exact hx e he
    · exact hh m e he

lemma EvPred.ofTryIgnore {P : Event → Prop} {x : DM Unit}
    (hx : EvPred P x) : EvPred P (DM.tryIgnore x) :=
  EvPred.ofTryCatch hx (fun _ e he => by simp [DM.pure] at he)

lemma EvPred.ofPure {P : Event → Prop} {α : Type} (a : α) : EvPred P (DM.pure a) := by
  intro e he; simp [DM.pure] at he

lemma EvPred.ofFail {P : Event → Prop} {α : Type} (m : String) :
    EvPred P (DM.fail m : DM α) := by
  intro e he; simp [DM.fail] at he

lemma EvPred.ofEmit {P : Event → Prop} {e : Event} (h : P e) : EvPred P (DM.emit e) := by
  intro x hx; simp [DM.emit] at hx; rwa [hx]

lemma EvPred.ofForList {P : Event → Prop} {α : Type} {f : α → DM Unit}
    (hf : ∀ a, EvPred P (f a)) (xs : List α) : EvPred P (DM.forList f xs) := by
  induction xs with
  | nil => exact EvPred.ofPure ()
  | cons a as ih => exact EvPred.ofBind (hf a) (fun _ => ih)

lemma EvPred.ofMapList {P : Event → Prop} {α β : Type} {f : α → DM β}
    (hf : ∀ a, EvPred P (f a)) (xs : List α) : EvPred P (DM.mapList f xs) := by
  induction xs with
  | nil => exact EvPred.ofPure []
  | cons a as ih =>
    exact EvPred.ofBind (hf a) (fun b => EvPred.ofBind ih (fun bs => EvPred.ofPure _))

lemma EvPred.mono {P Q : Event → Prop} {α : Type} {x : DM α}
    (hx : EvPred P x) (h : ∀ e, P e → Q e) : EvPred Q x :=
  fun e he => h e (hx e he)

/-- The event is not a remote invocation. -/
def notExec (e : Event) : Prop := ∀ s c, e ≠ Event.execCmd s c

/-- Every remote invocation in the trace targets `srv`. -/
def execTargets (srv : Server) (e : Event) : Prop := ∀ s c, e = Event.execCmd s c → s = srv

lemma EvPred.execT_of_notExec {srv : Server} {α : Type} {x : DM α}
    (h : EvPred notExec x) : EvPred (execTargets srv) x :=
  EvPred.mono h (fun e he s c heq => absurd heq (he s c))

lemma notExec_opEditMedia (b : Behavior) (mid : Nat) (d : Doc) (cap : Option String) :
    EvPred notExec (opEditMedia b mid d cap) := by
  unfold opEditMedia; split
  · exact EvPred.ofEmit (by intro s c h; simp at h)
  · exact EvPred.ofFail _

lemma notExec_opEditCaption (b : Behavior) (mid : Nat) (cap : String) :
    EvPred notExec (opEditCaption b mid cap) := by
  unfold opEditCaption; split
  · exact EvPred.ofEmit (by intro s c h; simp at h)
  · exact EvPred.ofFail _

lemma notExec_opDelete (b : Behavior) (mid : Nat) : EvPred notExec (opDelete b mid) := by
  unfold opDelete; split
  · exact EvPred.ofEmit (by intro s c h; simp at h)
  · exact EvPred.ofFail _

lemma notExec_opSendGroup (b : Behavior) (cap : Option String) (docs : List Doc) :
    EvPred notExec (opSendGroup b cap docs) := by
  unfold opSendGroup; split
  · exact EvPred.ofEmit (by intro s c h; simp at h)
  · exact EvPred.ofFail _

lemma notExec_opSendMessage (b : Behavior) (t : String) (kb : List (List (String × String))) :
    EvPred notExec (opSendMessage b t kb) := by
  unfold opSendMessage; split
  · exact EvPred.ofEmit (by intro s c h; simp at h)
  · exact EvPred.ofFail _

/-- The action-selection screen performs no remote invocation. -/
lemma notExec_show_action_selection (b : Behavior) (cfg : Config) (chat : Int) (mid : Nat)
    (sname : String) (ic : Bool) :
    EvPred notExec (show_action_selection b cfg chat mid sname ic) := by
  unfold show_action_selection
  dsimp only
  repeat' split
  all_goals exact EvPred.ofEmit (by intro s c h; simp at h)

/-- The server-selection screen performs no remote invocation. -/
lemma notExec_show_server_selection (b : Behavior) (cfg : Config) (chat : Int) (mid : Nat)
    (ic standalone auto : Bool) :
    EvPred notExec (show_server_selection b cfg chat mid ic standalone auto) := by
  unfold show_server_selection
  dsimp only
  repeat' split
  all_goals first
    | exact EvPred.ofEmit (by intro s c h; simp at h)
    | exact EvPred.ofPure ()
    | exact notExec_show_action_selection b cfg chat mid _ ic
    | exact notExec_opSendMessage b _ _

/-- Every remote invocation of `run_action` targets its server. -/
lemma execT_run_action (b : Behavior) (srv : Server) (a : Action) :
    EvPred (execTargets srv) (run_action b srv a) := by
  intro e he
  rw [run_action_eq] at he
  split at he
  · split at he <;> simp at he <;>
      [rcases he with rfl | rfl | rfl; rcases he with rfl | rfl] <;>
      intro s c h <;> simp at h <;> exact h.1.symm
  · simp at he
    subst he
    intro s c h
    simp at h

/-- Every remote invocation of `deploy_use_case` targets its server. -/
lemma execT_deploy_use_case (b : Behavior) (srv : Server) (a : Action) :
    EvPred (execTargets srv) (deploy_use_case b srv a) := by
  unfold deploy_use_case
  simp only [DM.bind_eq_def]
  exact EvPred.ofBind (EvPred.ofEmit (by intro s c h; simp at h))
    (fun _ => EvPred.ofBind (execT_run_action b srv a)
      (fun r => EvPred.execT_of_notExec (notExec_opSendGroup _ _ _)))

lemma execT_deploy_use_case_py (b : Behavior) (srv : Server) (oa : Option Action) :
    EvPred (execTargets srv) (deploy_use_case_py b srv oa) := by
  cases oa with
  | none => exact EvPred.ofFail _
  | some a => exact execT_deploy_use_case b srv a

lemma execT_run_single_action (b : Behavior) (srv : Server) (a : Action) :
    EvPred (execTargets srv) (run_single_action b srv a) := by
  unfold run_single_action
  apply EvPred.ofTryCatch
  · exact EvPred.ofBind (execT_run_action b srv a) (fun r => EvPred.ofPure _)
  · intro m; exact EvPred.ofPure _

/-- Every remote invocation of `run_deployment_async` targets its server. -/
lemma execT_run_deployment_async (b : Behavior) (prog : Option Nat) (pids : List Nat)
    (srv : Server) (actions : List Action) (sname : String) :
    EvPred (execTargets srv) (run_deployment_async b prog pids srv actions sname) := by
  unfold run_deployment_async
  simp only [DM.bind_eq_def, DM.pure_eq_def]
  split
  · exact EvPred.ofPure ()
  · refine EvPred.ofBind (EvPred.ofMapList (fun a => execT_run_single_action b srv a) actions)
      (fun action_results => ?_)
    dsimp only
    split
    · split
      · split
        · refine EvPred.ofTryCatch ?_ (fun m => ?_)
          · exact EvPred.ofBind
              (EvPred.execT_of_notExec (notExec_opEditMedia _ _ _ _))
              (fun _ => EvPred.execT_of_notExec (notExec_opEditMedia _ _ _ _))
          · exact EvPred.ofBind
              (EvPred.ofForList (fun mid => EvPred.ofTryIgnore
                (EvPred.execT_of_notExec (notExec_opDelete _ _))) pids)
              (fun _ => EvPred.execT_of_notExec (notExec_opSendGroup _ _ _))
        · exact EvPred.ofPure ()
      · refine EvPred.ofBind ?_ (fun _ => ?_)
        · split
          · exact EvPred.ofTryIgnore (EvPred.execT_of_notExec (notExec_opEditCaption _ _ _))
          · exact EvPred.ofPure ()
        · exact EvPred.ofForList
            (fun t => EvPred.ofTryIgnore (EvPred.execT_of_notExec (notExec_opSendGroup _ _ _))) _
    · refine EvPred.ofTryCatch (EvPred.execT_of_notExec (notExec_opEditCaption _ _ _))
        (fun m => ?_)
      exact EvPred.ofBind
        (EvPred.ofForList (fun mid => EvPred.ofTryIgnore
          (EvPred.execT_of_notExec (notExec_opDelete _ _))) pids)
        (fun _ => EvPred.execT_of_notExec (notExec_opSendMessage _ _ _))

/-- The per-config access-gate predicate on events: any remote invocation
targets a server the requester is allowed on. -/
def gatePred (cfg : Config) (chat : Int) (e : Event) : Prop :=
  ∀ s c, e = Event.execCmd s c → isAllowed cfg chat s = true

lemma EvPred.gate_of_notExec {cfg : Config} {chat : Int} {α : Type} {x : DM α}
    (h : EvPred notExec x) : EvPred (gatePred cfg chat) x :=
  EvPred.mono h (fun e he s c heq => absurd heq (he s c))

lemma EvPred.gate_of_execT {cfg : Config} {chat : Int} {srv : Server} {α : Type} {x : DM α}
    (h : EvPred (execTargets srv) x) (hall : isAllowed cfg chat srv = true) :
    EvPred (gatePred cfg chat) x :=
  EvPred.mono h (fun e he s c heq => by rw [he s c heq]; exact hall)

/-- The menu-callback execution path dispatches remote commands only behind
the access gate. -/
lemma gate_execute_deployment (b : Behavior) (cfg : Config) (chat : Int) (mid : Nat)
    (sname aname : String) :
    EvPred (gatePred cfg chat) (execute_deployment b cfg chat mid sname aname) := by
  unfold execute_deployment
  split
  · exact EvPred.ofEmit (by intro s c h; simp at h)
  · rename_i srv heq
    dsimp only
    split
    · exact EvPred.ofEmit (by intro s c h; simp at h)
    · rename_i hallow
      have hall : isAllowed cfg chat srv = true := by
        unfold isAllowed
        cases h1 : cfg.allowed_chat_ids.contains chat <;>
          cases h2 : srv.allowed_chat_ids.contains chat <;>
          simp_all
      split
      · exact EvPred.ofEmit (by intro s c h; simp at h)
      · rename_i actions hact
        simp only [DM.bind_eq_def]
        refine EvPred.ofBind
          (EvPred.gate_of_notExec (notExec_opSendGroup _ _ _)) (fun _ => ?_)
        refine EvPred.ofBind
          (EvPred.gate_of_notExec (EvPred.ofTryIgnore (notExec_opDelete _ _))) (fun _ => ?_)
        split
        · exact EvPred.ofFail _
        · refine EvPred.ofBind
            (EvPred.gate_of_notExec (notExec_show_server_selection b cfg chat _ false true false))
            (fun _ => ?_)
          exact EvPred.gate_of_execT (execT_run_deployment_async b _ _ srv actions sname) hall

/-- The direct `/deploy` path dispatches remote commands only behind the
access gate. -/
lemma gate_handle_command_deploy_args (b : Behavior) (cfg : Config) (chat : Int) (mid : Nat)
    (args : List String) :
    EvPred (gatePred cfg chat) (handle_command_deploy_args b cfg chat mid args) := by
  unfold handle_command_deploy_args
  split
  · dsimp only
    split
    · exact EvPred.ofEmit (by intro s c h; simp at h)
    · rename_i srv heq
      split
      · exact EvPred.ofEmit (by intro s c h; simp at h)
      · rename_i hallow
        have hall : isAllowed cfg chat srv = true := by
          unfold isAllowed
          cases h1 : cfg.allowed_chat_ids.contains chat <;>
            cases h2 : srv.allowed_chat_ids.contains chat <;>
            simp_all
        split
        · exact EvPred.ofEmit (by intro s c h; simp at h)
        · exact EvPred.ofForList
            (fun oa => EvPred.gate_of_execT (execT_deploy_use_case_py b srv oa) hall) _
  · exact EvPred.gate_of_notExec (notExec_show_server_selection b cfg chat mid false false true)

/-- The callback handler dispatches remote commands only behind the access
gate. -/
lemma gate_handle_deploy_callback (b : Behavior) (cfg : Config) (chat : Int) (mid : Nat)
    (data : String) :
    EvPred (gatePred cfg chat) (handle_deploy_callback b cfg chat mid data) := by
  unfold handle_deploy_callback
  dsimp only
  split
  · exact EvPred.ofEmit (by intro s c h; simp at h)
  · simp only [DM.bind_eq_def]
    split
    · exact EvPred.ofBind
        (EvPred.gate_of_notExec (notExec_show_server_selection b cfg chat mid true false false))
        (fun _ => EvPred.ofEmit (by intro s c h; simp at h))
    · split
      · exact EvPred.ofBind
          (EvPred.gate_of_notExec (notExec_show_action_selection b cfg chat mid _ true))
          (fun _ => EvPred.ofEmit (by intro s c h; simp at h))
      · split
        · exact EvPred.ofBind (gate_execute_deployment b cfg chat mid _ _)
            (fun _ => EvPred.ofEmit (by intro s c h; simp at h))
        · exact EvPred.ofEmit (by intro s c h; simp at h)


/-- Behaviour where every remote command raises. -/
def bExecBoom : Behavior := { bOk with execResult := fun _ _ => .error "boom" }

lemma gatherFoldAux_eval {α : Type} (outs : List α) (sched : List Nat) :
    ∀ (acc : Nat → Option α) (j : Nat),
      gatherFoldAux outs sched acc j = if j ∈ sched then outs[j]? else acc j := by
  induction sched with
  | nil => intro acc j; simp [gatherFoldAux]
  | cons i rest ih =>
    intro acc j
    rw [gatherFoldAux, ih]
    by_cases hj : j ∈ rest
    · simp [hj]
    · by_cases hji : j = i
      · subst hji; simp [hj]
      · simp [hj, hji]

/-- C1: a remote command for server `s` is dispatched only if the requester
is in the registry global allow-list or in `s`'s own allow-list, on both the
direct `/deploy` path and the menu-callback path; on denial the handler only
replies with the refusal text (no remote call, no action list revealed). -/
theorem C1_access_gate (b : Behavior) (cfg : Config) (chat : Int) (mid : Nat)
    (args : List String) (data : String) (sname aname : String) :
    (∀ s c, Event.execCmd s c ∈ (handle_command_deploy_args b cfg chat mid args).events →
        isAllowed cfg chat s = true)
  ∧ (∀ s c, Event.execCmd s c ∈ (handle_deploy_callback b cfg chat mid data).events →
        isAllowed cfg chat s = true)
  ∧ (∀ srv, dictGet cfg.servers sname = some srv → isAllowed cfg chat srv = false →
        (handle_command_deploy_args b cfg chat mid [sname, aname]).events
          = [.reply "You are not allowed to deploy to this server" []]
      ∧ (execute_deployment b cfg chat mid sname aname).events
          = [.reply "You are not allowed to deploy to this server" []]
      ∧ (show_action_selection b cfg chat mid sname true).events
          = [.editText mid "You are not allowed to deploy to this server" []]) := by
  refine ⟨?_, ?_, ?_⟩
  · exact fun s c h => gate_handle_command_deploy_args b cfg chat mid args _ h s c rfl
  · exact fun s c h => gate_handle_deploy_callback b cfg chat mid data _ h s c rfl
  · intro srv hsrv hdeny
    unfold isAllowed at hdeny
    rw [Bool.or_eq_false_iff] at hdeny
    obtain ⟨h1, h2⟩ := hdeny
    have m1 : chat ∉ cfg.allowed_chat_ids := by simpa using h1
    have m2 : chat ∉ srv.allowed_chat_ids := by simpa using h2
    refine ⟨?_, ?_, ?_⟩
    · unfold handle_command_deploy_args
      simp [hsrv, m1, m2]
    · unfold execute_deployment
      simp [hsrv, m1, m2]
    · unfold show_action_selection
      simp [hsrv, m1, m2]

/-- C1 witness: chat 2 is on neither allow-list of `cfgS`, so all three
denial traces are the single refusal message. -/
theorem C1_access_gate_witness :
    (handle_command_deploy_args bOk cfgS 2 99 ["s", "alpha"]).events
      = [.reply "You are not allowed to deploy to this server" []]
  ∧ (execute_deployment bOk cfgS 2 99 "s" "alpha").events
      = [.reply "You are not allowed to deploy to this server" []]
  ∧ (show_action_selection bOk cfgS 2 99 "s" true).events
      = [.editText 99 "You are not allowed to deploy to this server" []] :=
  (C1_access_gate bOk cfgS 2 99 ["s", "alpha"] "deploy:menu" "s" "alpha").2.2 srvS
    (by decide) (by decide)

/-- C2: the outcome list collected by the gather model is in input order for
every completion schedule that completes all tasks, and it is exactly the
list `run_deployment_async` consumes. -/
theorem C2_gather_preserves_order (b : Behavior) (server : Server) (actions : List Action)
    (sched : List Nat) (hcover : ∀ i, i < actions.length → i ∈ sched) :
    asyncGatherSlots (actions.map (runSingleValue b server)) sched
      = (actions.map (runSingleValue b server)).map some
  ∧ (DM.mapList (run_single_action b server) actions).result
      = .ok (actions.map (runSingleValue b server)) := by
  constructor
  · unfold asyncGatherSlots gatherWrites
    apply List.ext_getElem
    · simp
    · intro i h1 h2
      simp only [List.getElem_map, List.getElem_range]
      rw [gatherFoldAux_eval]
      have hi : i < actions.length := by simpa using h1
      rw [if_pos (hcover i hi)]
      rw [List.getElem?_eq_getElem (by simpa using hi)]
      simp
  · rw [DM.mapList_pure (run_single_action b server) (runSingleEvents b server)
      (runSingleValue b server) actions (fun a _ => run_single_action_eq b server a)]

/-- C2 witness: three actions, completion order 2-0-1, outcomes still in
input order. -/
theorem C2_gather_preserves_order_witness :
    asyncGatherSlots ([actA, actB, actC].map (runSingleValue bOk srvS)) [2, 0, 1]
      = ([actA, actB, actC].map (runSingleValue bOk srvS)).map some
  ∧ (DM.mapList (run_single_action bOk srvS) [actA, actB, actC]).result
      = .ok ([actA, actB, actC].map (runSingleValue bOk srvS)) :=
  C2_gather_preserves_order bOk srvS [actA, actB, actC] [2, 0, 1] (by decide)

/-- C3 counterexample: server `s` has `allow_run_all = false`, yet the forged
direct command `/deploy s all` is not rejected as NotFound — it runs every
configured action of the server remotely. -/
theorem C3_counterexample :
    srvS.allow_run_all = false
  ∧ Event.execCmd srvS "cmd-alpha" ∈ (handle_command_deploy bOk cfgS 1 99 (some "s all")).events
  ∧ Event.execCmd srvS "cmd-bravo" ∈ (handle_command_deploy bOk cfgS 1 99 (some "s all")).events
  ∧ Event.execCmd srvS "cmd-charlie" ∈ (handle_command_deploy bOk cfgS 1 99 (some "s all")).events
  ∧ Event.reply "Action not found" [] ∉ (handle_command_deploy bOk cfgS 1 99 (some "s all")).events := by
  decide

/-- C5: the direct command `/deploy s ghost` with an existing permitted
server and an unknown action name does not produce the "Action not found"
screen — the guard `if not actions` tests the non-empty list
`[server_obj.actions.get(action)]`, so the handler passes `None` to
`deploy_use_case`, which raises `AttributeError`; no remote call is made. -/
theorem C5_unknown_action_direct_crash :
    (handle_command_deploy bOk cfgS 1 99 (some "s ghost")).result
      = Except.error "AttributeError: NoneType object has no attribute name"
  ∧ (handle_command_deploy bOk cfgS 1 99 (some "s ghost")).events = []
  ∧ Event.reply "Action not found" [] ∉ (handle_command_deploy bOk cfgS 1 99 (some "s ghost")).events
  ∧ ∀ s c, Event.execCmd s c ∉ (handle_command_deploy bOk cfgS 1 99 (some "s ghost")).events := by
  have he : (handle_command_deploy bOk cfgS 1 99 (some "s ghost")).events = [] := by decide
  refine ⟨by decide, he, ?_, ?_⟩
  · rw [he]; simp
  · intro s c; rw [he]; simp

/-- C6: each action's remote failure is caught inside its own task and
becomes that action's error outcome; outcomes line up with the input list
and an action's outcome depends only on the collaborator behaviour at that
action, so one failure never aborts or alters a sibling. -/
theorem C6_failure_isolated_per_action (b : Behavior) (server : Server) (actions : List Action) :
    (∀ a, run_single_action b server a
        = ⟨runSingleEvents b server a, .ok (runSingleValue b server a)⟩)
  ∧ (DM.mapList (run_single_action b server) actions).result
      = .ok (actions.map (runSingleValue b server))
  ∧ (∀ a e, b.connectOk server = true → b.execResult server a = .error e →
      runSingleValue b server a = ⟨none, none, a, some e⟩)
  ∧ (∀ (b2 : Behavior) a, b2.connectOk server = b.connectOk server →
      b2.execResult server a = b.execResult server a →
      runSingleValue b2 server a = runSingleValue b server a) := by
  refine ⟨run_single_action_eq b server, ?_, ?_, ?_⟩
  · rw [DM.mapList_pure (run_single_action b server) (runSingleEvents b server)
      (runSingleValue b server) actions (fun a _ => run_single_action_eq b server a)]
  · intro a e hc he; simp [runSingleValue, hc, he]
  · intro b2 a h1 h2; unfold runSingleValue; rw [h1, h2]

/-- C6 witness: `bravo`'s raise is converted into its own error outcome. -/
theorem C6_failure_isolated_per_action_witness :
    runSingleValue bBravoFails srvS actB = ⟨none, none, actB, some "boom"⟩ :=
  (C6_failure_isolated_per_action bBravoFails srvS [actA, actB, actC]).2.2.1 actB "boom"
    (by decide) (by decide)

/-- C9 counterexample: when the remote command raises, `run_action` leaves
the connection open — the trace records the connect and the command but no
close. -/
theorem C9_counterexample :
    (run_action bExecBoom srvS actA).events = [.connect srvS, .execCmd srvS "cmd-alpha"]
  ∧ Event.closeConn srvS ∉ (run_action bExecBoom srvS actA).events
  ∧ (run_action bExecBoom srvS actA).result = Except.error "boom" := by
  decide

/-- C9 amended: the connection opened by `run_action` is closed on the
normal exit path (after the output is read), but on the exit path where
running the command or reading its output raises, `client.close()` is never
reached and the connection stays open. -/
theorem C9_close_scoped_to_success (b : Behavior) (s : Server) (a : Action) :
    (∀ out, b.connectOk s = true → b.execResult s a = .ok out →
        (run_action b s a).events = [.connect s, .execCmd s a.command, .closeConn s])
  ∧ (∀ e, b.connectOk s = true → b.execResult s a = .error e →
        (run_action b s a).events = [.connect s, .execCmd s a.command]
      ∧ Event.closeConn s ∉ (run_action b s a).events
      ∧ (run_action b s a).result = .error e) := by
  constructor
  · intro out hc he; rw [run_action_eq]; simp [hc, he]
  · intro e hc he
    refine ⟨?_, ?_, ?_⟩ <;> rw [run_action_eq] <;> simp [hc, he]

/-- C9 amended witness: success path closes; failure path leaves open. -/
theorem C9_close_scoped_to_success_witness :
    (run_action bOk srvS actA).events = [.connect srvS, .execCmd srvS "cmd-alpha", .closeConn srvS] :=
  (C9_close_scoped_to_success bOk srvS actA).1 "out-alpha" (by decide) (by decide)

/-- Behaviour where both placeholder edits are rejected by the transport. -/
def bEditFails : Behavior := { bOk with editMediaOk := fun _ => false }

lemma tryIgnore_opEditCaption (b : Behavior) (mid : Nat) (cap : String) :
    DM.tryIgnore (opEditCaption b mid cap)
      = ⟨if b.editCaptionOk mid then [.editCaption mid cap] else [], .ok ()⟩ := by
  cases h : b.editCaptionOk mid <;>
    simp [DM.tryIgnore, opEditCaption, h, DM.tryCatch]

lemma tryIgnore_opDelete (b : Behavior) (mid : Nat) :
    DM.tryIgnore (opDelete b mid)
      = ⟨if b.deleteOk mid then [.deleteMsg mid] else [], .ok ()⟩ := by
  cases h : b.deleteOk mid <;>
    simp [DM.tryIgnore, opDelete, h, DM.tryCatch]

lemma tryIgnore_opSendGroup (b : Behavior) (cap : Option String) (docs : List Doc) :
    DM.tryIgnore (opSendGroup b cap docs)
      = ⟨if b.sendGroupOk then [.sendMediaGroup cap docs] else [], .ok ()⟩ := by
  cases h : b.sendGroupOk <;>
    simp [DM.tryIgnore, opSendGroup, h, DM.tryCatch]

/-- Closed form of `run_deployment_async` in the multiple-actions branch
(at least one success, at least two requested actions): the caption of the
first placeholder is edited to the first success's caption, then one media
group is sent per further success; failed actions produce no delivery
event. -/
lemma run_deployment_async_multi (b : Behavior) (pm p0 p1 : Nat) (server : Server)
    (actions : List Action) (sname : String) (rs errs : List String)
    (f0 : Doc × Doc × Action) (amdRest : List (Doc × Doc × Action))
    (hproc : processResults (actions.map (runSingleValue b server)) = (rs, errs, f0 :: amdRest))
    (hlen : 2 ≤ actions.length) :
    run_deployment_async b (some pm) [p0, p1] server actions sname
      = ⟨actions.flatMap (runSingleEvents b server)
          ++ (if b.editCaptionOk p0 then
                [.editCaption p0 ("Result of action " ++ f0.2.2.name ++ " on " ++ server.name)]
              else [])
          ++ amdRest.flatMap (fun t =>
              if b.sendGroupOk then
                [.sendMediaGroup
                  (some ("Result of action " ++ t.2.2.name ++ " on " ++ server.name))
                  [t.1, t.2.1]]
              else []),
        .ok ()⟩ := by
  obtain ⟨fp, ft, fa⟩ := f0
  have hmap := DM.mapList_pure (run_single_action b server) (runSingleEvents b server)
    (runSingleValue b server) actions (fun a _ => run_single_action_eq b server a)
  have hsend := DM.forList_pure
    (fun (t : Doc × Doc × Action) =>
      DM.tryIgnore
        (opSendGroup b (some ("Result of action " ++ t.2.2.name ++ " on " ++ server.name))
          [t.1, t.2.1]))
    (fun t => if b.sendGroupOk then
        [.sendMediaGroup (some ("Result of action " ++ t.2.2.name ++ " on " ++ server.name))
          [t.1, t.2.1]]
      else [])
    amdRest
    (fun t _ => tryIgnore_opSendGroup b _ _)
  unfold run_deployment_async
  simp only [DM.bind_eq_def]
  rw [if_neg (by simp)]
  rw [hmap]
  simp only [DM.bind_mk_ok]
  try dsimp only
  rw [hproc]
  try dsimp only
  rw [if_pos (by simp [hlen])]
  rw [if_neg (by simp; omega)]
  try dsimp only
  rw [tryIgnore_opEditCaption]
  simp only [List.drop_succ_cons, List.drop_zero]
  rw [hsend]
  simp

/-- Closed form of `run_deployment_async` when no action succeeded: the
first placeholder's caption is edited to a composite error message listing
every per-action error line. -/
lemma run_deployment_async_allfail (b : Behavior) (pm p0 p1 : Nat) (server : Server)
    (actions : List Action) (sname : String) (rs errs : List String)
    (a0 : Action) (rest : List Action)
    (hproc : processResults (actions.map (runSingleValue b server)) = (rs, errs, []))
    (hact : actions = a0 :: rest) (herr : errs ≠ [])
    (hedit : b.editCaptionOk p0 = true) :
    run_deployment_async b (some pm) [p0, p1] server actions sname
      = ⟨actions.flatMap (runSingleEvents b server)
          ++ [.editCaption p0 ("Result of action " ++ a0.name ++ " on " ++ sname
              ++ "\n\nErrors:\n" ++ joinSep "\n" errs)],
        .ok ()⟩ := by
  have hmap := DM.mapList_pure (run_single_action b server) (runSingleEvents b server)
    (runSingleValue b server) actions (fun a _ => run_single_action_eq b server a)
  unfold run_deployment_async
  simp only [DM.bind_eq_def]
  rw [if_neg (by simp)]
  rw [hmap]
  simp only [DM.bind_mk_ok]
  try dsimp only
  rw [hproc]
  try dsimp only
  rw [if_neg (by simp)]
  subst hact
  simp only []
  rw [if_pos (by simpa using herr)]
  simp [DM.tryCatch, opEditCaption, hedit, String.append_assoc]

/-- C7: for a single successful action, when either placeholder edit is
rejected by the platform, the delivery falls back to deleting both
placeholders and sending exactly one fresh two-attachment group with the
same png, the same txt and the same result caption the edits would have
carried. -/
theorem C7_single_action_edit_fallback (b : Behavior) (pm p0 p1 : Nat) (server : Server)
    (a : Action) (sname : String) (out : String)
    (hc : b.connectOk server = true) (he : b.execResult server a = .ok out)
    (hfail : b.editMediaOk p0 = false ∨ b.editMediaOk p1 = false)
    (hd0 : b.deleteOk p0 = true) (hd1 : b.deleteOk p1 = true)
    (hs : b.sendGroupOk = true) :
    run_deployment_async b (some pm) [p0, p1] server [a] sname
      = ⟨[.connect server, .execCmd server a.command, .closeConn server]
          ++ (if b.editMediaOk p0 then
                [.editMedia p0 ("deploy_result_" ++ a.name ++ ".png", out)
                  (some ("Result of action " ++ a.name ++ " on " ++ sname))]
              else [])
          ++ [.deleteMsg p0, .deleteMsg p1,
              .sendMediaGroup (some ("Result of action " ++ a.name ++ " on " ++ sname))
                [("deploy_result_" ++ a.name ++ ".png", out), ("output.txt", out)]],
        .ok ()⟩ := by
  have hmap := DM.mapList_pure (run_single_action b server) (runSingleEvents b server)
    (runSingleValue b server) [a] (fun x _ => run_single_action_eq b server x)
  unfold run_deployment_async
  simp only [DM.bind_eq_def]
  rw [if_neg (by simp)]
  rw [hmap]
  simp only [DM.bind_mk_ok]
  try dsimp only
  simp only [List.flatMap_cons, List.flatMap_nil, List.map_cons, List.map_nil]
  simp only [show runSingleValue b server a
      = ⟨some ("deploy_result_" ++ a.name ++ ".png", out), some ("output.txt", out), a, none⟩
    from by simp [runSingleValue, hc, he]]
  simp only [show runSingleEvents b server a
      = [.connect server, .execCmd server a.command, .closeConn server]
    from by simp [runSingleEvents, hc, he]]
  simp only [processResults]
  try dsimp only
  rw [if_pos (by simp)]
  rw [if_pos (by simp)]
  have hdel := DM.forList_pure (fun mid => DM.tryIgnore (opDelete b mid))
    (fun mid => if b.deleteOk mid then [.deleteMsg mid] else []) [p0, p1]
    (fun mid _ => tryIgnore_opDelete b mid)
  rcases hfail with h0 | h1
  · simp [DM.tryCatch, opEditMedia, h0, DM.bind, hdel, hd0, hd1, opSendGroup, hs]
  · cases h0 : b.editMediaOk p0 <;>
      simp [DM.tryCatch, opEditMedia, h0, h1, DM.bind, hdel, hd0, hd1, opSendGroup, hs]

/-- C7 witness: both edits rejected; two deletes and one fresh group with
the unchanged content. -/
theorem C7_single_action_edit_fallback_witness :
    run_deployment_async bEditFails (some 10) [10, 11] srvS [actA] "s"
      = ⟨[.connect srvS, .execCmd srvS "cmd-alpha", .closeConn srvS]
          ++ ([] : List Event)
          ++ [.deleteMsg 10, .deleteMsg 11,
              .sendMediaGroup (some "Result of action alpha on s")
                [("deploy_result_alpha.png", "out-alpha"), ("output.txt", "out-alpha")]],
        .ok ()⟩ := by
  have h := C7_single_action_edit_fallback bEditFails 10 10 11 srvS actA "s" "out-alpha"
    (by decide) (by decide) (Or.inl (by decide)) (by decide) (by decide) (by decide)
  simpa using h

/-- Every failed action's error line is collected in input order by the
result-processing loop. -/
lemma processResults_error_mem :
    ∀ (rs : List SingleRes) (r : SingleRes) (e : String),
      r ∈ rs → r.error = some e → (r.action.name ++ ": " ++ e) ∈ (processResults rs).2.1 := by
  intro rs
  induction rs with
  | nil => intro r e hr; simp at hr
  | cons x xs ih =>
    intro r e hr he
    rcases List.mem_cons.mp hr with rfl | hr
    · simp [processResults, he]
    · cases hx : x.error <;> simp [processResults, hx]
      · exact ih r e hr he
      · exact Or.inr (ih r e hr he)

/-- The initial visible chat for the three-action scenario: the two
placeholder messages sent by `execute_deployment` (ids 10 and 11), captioned
with the pending action list. -/
def c4init : List ChatMsg :=
  [⟨some 10, some "Running: alpha, bravo, charlie on s...", none,
      [("placeholder.png", "Loading results...")]⟩,
   ⟨some 11, none, none, [("placeholder.txt", "Loading...")]⟩]

/-- The delivery trace for three actions where `bravo` fails and the other
two succeed, with every platform call succeeding. -/
def c4trace : List Event :=
  (run_deployment_async bBravoFails (some 10) [10, 11] srvS [actA, actB, actC] "s").events

/-- C4 counterexample: three requested actions, `bravo` fails and the others
succeed; the final visible chat renders results for `alpha` and `charlie`
but contains no message mentioning `bravo` at all — the failed action gets
neither a rendered result nor an error line. -/
theorem C4_counterexample :
    runSingleValue bBravoFails srvS actB = ⟨none, none, actB, some "boom"⟩
  ∧ actB.name = "bravo"
  ∧ stateMentions (applyEvents c4init c4trace) "bravo" = false
  ∧ stateMentions (applyEvents c4init c4trace) "alpha" = true
  ∧ stateMentions (applyEvents c4init c4trace) "charlie" = true := by
  decide

/-- C4 amended: in the branch with at least one success and several
requested actions, the delivery consists of the first success's caption
edit and one media group per further success — failed actions produce no
visible error line; the composite error caption (listing every collected
error line, and every failed action contributes its line) is produced only
in the branch where no action succeeded. -/
theorem C4_mixed_failure_visibility (b : Behavior) (pm p0 p1 : Nat) (server : Server)
    (actions : List Action) (sname : String) :
    (∀ rs errs f0 amdRest,
      processResults (actions.map (runSingleValue b server)) = (rs, errs, f0 :: amdRest) →
      2 ≤ actions.length →
      run_deployment_async b (some pm) [p0, p1] server actions sname
        = ⟨actions.flatMap (runSingleEvents b server)
            ++ (if b.editCaptionOk p0 then
                  [.editCaption p0 ("Result of action " ++ f0.2.2.name ++ " on " ++ server.name)]
                else [])
            ++ amdRest.flatMap (fun t =>
                if b.sendGroupOk then
                  [.sendMediaGroup
                    (some ("Result of action " ++ t.2.2.name ++ " on " ++ server.name))
                    [t.1, t.2.1]]
                else []),
          .ok ()⟩)
  ∧ (∀ rs errs a0 rest,
      processResults (actions.map (runSingleValue b server)) = (rs, errs, []) →
      actions = a0 :: rest → errs ≠ [] → b.editCaptionOk p0 = true →
      run_deployment_async b (some pm) [p0, p1] server actions sname
        = ⟨actions.flatMap (runSingleEvents b server)
            ++ [.editCaption p0 ("Result of action " ++ a0.name ++ " on " ++ sname
                ++ "\n\nErrors:\n" ++ joinSep "\n" errs)],
          .ok ()⟩)
  ∧ (∀ r e, r ∈ actions.map (runSingleValue b server) → r.error = some e →
      (r.action.name ++ ": " ++ e) ∈ (processResults (actions.map (runSingleValue b server))).2.1) := by
  refine ⟨?_, ?_, ?_⟩
  · intro rs errs f0 amdRest hproc hlen
    exact run_deployment_async_multi b pm p0 p1 server actions sname rs errs f0 amdRest hproc hlen
  · intro rs errs a0 rest hproc hact herr hedit
    exact run_deployment_async_allfail b pm p0 p1 server actions sname rs errs a0 rest hproc hact herr hedit
  · intro r e hr he
    exact processResults_error_mem _ r e hr he

/-- C4 amended witness: the concrete mixed run — caption edit for `alpha`,
one group for `charlie`, and no event for `bravo`. -/
theorem C4_mixed_failure_visibility_witness :
    run_deployment_async bBravoFails (some 10) [10, 11] srvS [actA, actB, actC] "s"
      = ⟨[actA, actB, actC].flatMap (runSingleEvents bBravoFails srvS)
          ++ (if bBravoFails.editCaptionOk 10 then
                [.editCaption 10 ("Result of action " ++ actA.name ++ " on " ++ srvS.name)]
              else [])
          ++ [(("deploy_result_charlie.png", "out-charlie"), ("output.txt", "out-charlie"), actC)].flatMap
              (fun t =>
                if bBravoFails.sendGroupOk then
                  [.sendMediaGroup
                    (some ("Result of action " ++ t.2.2.name ++ " on " ++ srvS.name))
                    [t.1, t.2.1]]
                else []),
        .ok ()⟩ :=
  (C4_mixed_failure_visibility bBravoFails 10 10 11 srvS [actA, actB, actC] "s").1
    ["alpha", "bravo: boom", "charlie"] ["bravo: boom"]
    (("deploy_result_alpha.png", "out-alpha"), ("output.txt", "out-alpha"), actA)
    [(("deploy_result_charlie.png", "out-charlie"), ("output.txt", "out-charlie"), actC)]
    (by decide) (by decide)

/-- Exec-phase events: SSH-side effects with no chat-visible effect. -/
def execPhase (e : Event) : Prop :=
  (∃ s, e = Event.connect s) ∨ (∃ s c, e = Event.execCmd s c) ∨ (∃ s, e = Event.closeConn s)

lemma runSingleEvents_execPhase (b : Behavior) (s : Server) (a : Action) :
    ∀ e ∈ runSingleEvents b s a, execPhase e := by
  intro e he
  unfold runSingleEvents at he
  split at he
  · split at he <;> simp at he <;>
      [rcases he with rfl | rfl | rfl; rcases he with rfl | rfl] <;>
      simp [execPhase]
  · simp at he; subst he; simp [execPhase]

lemma applyEvent_execPhase (st : List ChatMsg) (e : Event) (h : execPhase e) :
    applyEvent st e = st := by
  rcases h with ⟨s, rfl⟩ | ⟨s, c, rfl⟩ | ⟨s, rfl⟩ <;> rfl

lemma applyEvents_append (st : List ChatMsg) (l1 l2 : List Event) :
    applyEvents st (l1 ++ l2) = applyEvents (applyEvents st l1) l2 :=
  List.foldl_append applyEvent st l1 l2

lemma applyEvents_execPhase (evs : List Event) (h : ∀ e ∈ evs, execPhase e) :
    ∀ st : List ChatMsg, applyEvents st evs = st := by
  induction evs with
  | nil => intro st; rfl
  | cons e rest ih =>
    intro st
    have h1 : applyEvent st e = st := applyEvent_execPhase st e (h e (by simp))
    show applyEvents (applyEvent st e) rest = st
    rw [h1, ih (fun x hx => h x (by simp [hx]))]

lemma applyEvents_groups {α : Type} (g : α → Option String) (d : α → List Doc) (flag : Bool) :
    ∀ (xs : List α) (st : List ChatMsg),
      applyEvents st (xs.flatMap (fun t => if flag then [Event.sendMediaGroup (g t) (d t)] else []))
        = st ++ xs.flatMap (fun t => if flag then sentGroupMsgs (g t) (d t) else []) := by
  cases flag
  · intro xs st
    have h1 : xs.flatMap
        (fun t => if (false : Bool) then [Event.sendMediaGroup (g t) (d t)] else []) = [] := by
      induction xs <;> simp [*]
    have h2 : xs.flatMap
        (fun t => if (false : Bool) then sentGroupMsgs (g t) (d t) else []) = [] := by
      induction xs <;> simp [*]
    rw [h1, h2]
    simp [applyEvents]
  · intro xs
    induction xs with
    | nil => intro st; simp [applyEvents]
    | cons x xs ih =>
      intro st
      simp only [List.flatMap_cons, eq_self_iff_true, if_true, List.singleton_append] at ih ⊢
      show applyEvents (applyEvent st (Event.sendMediaGroup (g x) (d x))) _ = _
      rw [show applyEvent st (Event.sendMediaGroup (g x) (d x))
          = st ++ sentGroupMsgs (g x) (d x) from rfl]
      rw [ih]
      simp

/-- C10: in the multiple-actions branch with at least one success, only the
caption of the first placeholder message is ever modified — no media edit,
text edit or delete occurs, the placeholders keep their attachments in the
final visible chat, and the first success's png and txt files are never part
of any transmitted media group. -/
theorem C10_first_success_never_transmitted (b : Behavior) (pm p0 p1 : Nat) (server : Server)
    (actions : List Action) (sname : String) (rs errs : List String)
    (f0 : Doc × Doc × Action) (amdRest : List (Doc × Doc × Action))
    (hproc : processResults (actions.map (runSingleValue b server)) = (rs, errs, f0 :: amdRest))
    (hlen : 2 ≤ actions.length) (hne : p0 ≠ p1) :
    (∀ mid d cap, Event.editMedia mid d cap
        ∉ (run_deployment_async b (some pm) [p0, p1] server actions sname).events)
  ∧ (∀ mid t kb, Event.editText mid t kb
        ∉ (run_deployment_async b (some pm) [p0, p1] server actions sname).events)
  ∧ (∀ mid, Event.deleteMsg mid
        ∉ (run_deployment_async b (some pm) [p0, p1] server actions sname).events)
  ∧ (∀ mid c, Event.editCaption mid c
        ∈ (run_deployment_async b (some pm) [p0, p1] server actions sname).events →
      mid = p0 ∧ c = "Result of action " ++ f0.2.2.name ++ " on " ++ server.name)
  ∧ (∀ (cap0 cap1 : Option String) (d0 d1 : List Doc),
      applyEvents [⟨some p0, cap0, none, d0⟩, ⟨some p1, cap1, none, d1⟩]
          (run_deployment_async b (some pm) [p0, p1] server actions sname).events
        = [⟨some p0,
              (if b.editCaptionOk p0 then
                some ("Result of action " ++ f0.2.2.name ++ " on " ++ server.name)
              else cap0), none, d0⟩,
           ⟨some p1, cap1, none, d1⟩]
          ++ amdRest.flatMap (fun t =>
              if b.sendGroupOk then
                sentGroupMsgs (some ("Result of action " ++ t.2.2.name ++ " on " ++ server.name))
                  [t.1, t.2.1]
              else []))
  ∧ ((∀ t ∈ amdRest, t.1 ≠ f0.1 ∧ t.2.1 ≠ f0.1 ∧ t.1 ≠ f0.2.1 ∧ t.2.1 ≠ f0.2.1) →
      ∀ cap docs, Event.sendMediaGroup cap docs
          ∈ (run_deployment_async b (some pm) [p0, p1] server actions sname).events →
        f0.1 ∉ docs ∧ f0.2.1 ∉ docs) := by
  have hev : (run_deployment_async b (some pm) [p0, p1] server actions sname).events
      = actions.flatMap (runSingleEvents b server)
        ++ (if b.editCaptionOk p0 then
              [.editCaption p0 ("Result of action " ++ f0.2.2.name ++ " on " ++ server.name)]
            else [])
        ++ amdRest.flatMap (fun t =>
            if b.sendGroupOk then
              [.sendMediaGroup
                (some ("Result of action " ++ t.2.2.name ++ " on " ++ server.name))
                [t.1, t.2.1]]
            else []) := by
    rw [run_deployment_async_multi b pm p0 p1 server actions sname rs errs f0 amdRest hproc hlen]
  have hshape : ∀ e ∈ (run_deployment_async b (some pm) [p0, p1] server actions sname).events,
      execPhase e
      ∨ (e = Event.editCaption p0 ("Result of action " ++ f0.2.2.name ++ " on " ++ server.name)
          ∧ b.editCaptionOk p0 = true)
      ∨ (∃ t ∈ amdRest,
          e = Event.sendMediaGroup
              (some ("Result of action " ++ t.2.2.name ++ " on " ++ server.name))
              [t.1, t.2.1]
          ∧ b.sendGroupOk = true) := by
    intro e he
    rw [hev] at he
    rcases List.mem_append.mp he with he | he
    · rcases List.mem_append.mp he with he | he
      · obtain ⟨a, ha, hin⟩ := List.mem_flatMap.mp he
        exact Or.inl (runSingleEvents_execPhase b server a e hin)
      · rcases hcap : b.editCaptionOk p0 with _ | _ <;> rw [hcap] at he <;> simp at he
        exact Or.inr (Or.inl ⟨he, rfl⟩)
    · obtain ⟨t, ht, hin⟩ := List.mem_flatMap.mp he
      rcases hsg : b.sendGroupOk with _ | _ <;> rw [hsg] at hin <;> simp at hin
      exact Or.inr (Or.inr ⟨t, ht, hin, rfl⟩)
  refine ⟨?_, ?_, ?_, ?_, ?_, ?_⟩
  · intro mid d cap h
    rcases hshape _ h with hph | ⟨heq, _⟩ | ⟨t, ht, heq, _⟩
    · rcases hph with ⟨s, h2⟩ | ⟨s, c, h2⟩ | ⟨s, h2⟩ <;> simp at h2
    · simp at heq
    · simp at heq
  · intro mid t kb h
    rcases hshape _ h with hph | ⟨heq, _⟩ | ⟨t2, ht, heq, _⟩
    · rcases hph with ⟨s, h2⟩ | ⟨s, c, h2⟩ | ⟨s, h2⟩ <;> simp at h2
    · simp at heq
    · simp at heq
  · intro mid h
    rcases hshape _ h with hph | ⟨heq, _⟩ | ⟨t2, ht, heq, _⟩
    · rcases hph with ⟨s, h2⟩ | ⟨s, c, h2⟩ | ⟨s, h2⟩ <;> simp at h2
    · simp at heq
    · simp at heq
  · intro mid c h
    rcases hshape _ h with hph | ⟨heq, _⟩ | ⟨t2, ht, heq, _⟩
    · rcases hph with ⟨s, h2⟩ | ⟨s, c2, h2⟩ | ⟨s, h2⟩ <;> simp at h2
    · simp at heq; exact ⟨heq.1, heq.2⟩
    · simp at heq
  · intro cap0 cap1 d0 d1
    rw [hev, applyEvents_append, applyEvents_append]
    rw [applyEvents_execPhase (actions.flatMap (runSingleEvents b server))
      (fun e he => by
        obtain ⟨a, ha, hin⟩ := List.mem_flatMap.mp he
        exact runSingleEvents_execPhase b server a e hin)]
    rw [applyEvents_groups (fun t => some ("Result of action " ++ t.2.2.name ++ " on " ++ server.name))
      (fun t => [t.1, t.2.1]) b.sendGroupOk amdRest]
    congr 1
    rcases hcap : b.editCaptionOk p0 with _ | _
    · rfl
    · show applyEvents _ [Event.editCaption p0 _] = _
      show applyEvent _ (Event.editCaption p0 _) = _
      simp [applyEvent, hne, Ne.symm hne]
  · intro hdist cap docs h
    rcases hshape _ h with hph | ⟨heq, _⟩ | ⟨t, ht, heq, _⟩
    · rcases hph with ⟨s, h2⟩ | ⟨s, c2, h2⟩ | ⟨s, h2⟩ <;> simp at h2
    · simp at heq
    · have hd := hdist t ht
      simp at heq
      obtain ⟨heq1, heq2⟩ := heq
      subst heq2
      constructor
      · intro hm
        simp at hm
        rcases hm with hm | hm
        · exact hd.1 hm.symm
        · exact hd.2.1 hm.symm
      · intro hm
        simp at hm
        rcases hm with hm | hm
        · exact hd.2.2.1 hm.symm
        · exact hd.2.2.2 hm.symm

/-- C10 witness: final visible chat of the concrete mixed run — placeholder
attachments unchanged, only the first placeholder's caption replaced, one
new group for `charlie`. -/
theorem C10_first_success_never_transmitted_witness :
    applyEvents [⟨some 10, some "Running: alpha, bravo, charlie on s...", none,
          [("placeholder.png", "Loading results...")]⟩,
        ⟨some 11, none, none, [("placeholder.txt", "Loading...")]⟩]
        (run_deployment_async bBravoFails (some 10) [10, 11] srvS [actA, actB, actC] "s").events
      = [⟨some 10,
            (if bBravoFails.editCaptionOk 10 then
              some ("Result of action " ++ actA.name ++ " on " ++ srvS.name)
            else some "Running: alpha, bravo, charlie on s..."), none,
            [("placeholder.png", "Loading results...")]⟩,
         ⟨some 11, none, none, [("placeholder.txt", "Loading...")]⟩]
        ++ [(("deploy_result_charlie.png", "out-charlie"), ("output.txt", "out-charlie"), actC)].flatMap
            (fun t =>
              if bBravoFails.sendGroupOk then
                sentGroupMsgs (some ("Result of action " ++ t.2.2.name ++ " on " ++ srvS.name))
                  [t.1, t.2.1]
              else []) :=
  (C10_first_success_never_transmitted bBravoFails 10 10 11 srvS [actA, actB, actC] "s"
      ["alpha", "bravo: boom", "charlie"] ["bravo: boom"]
      (("deploy_result_alpha.png", "out-alpha"), ("output.txt", "out-alpha"), actA)
      [(("deploy_result_charlie.png", "out-charlie"), ("output.txt", "out-charlie"), actC)]
      (by decide) (by decide) (by decide)).2.2.2.2.1
    (some "Running: alpha, bravo, charlie on s...") none
    [("placeholder.png", "Loading results...")] [("placeholder.txt", "Loading...")]

lemma string_append_left_cancel (x y z : String) (h : x ++ y = x ++ z) : y = z := by
  have hd := congrArg String.data h
  rw [String.data_append, String.data_append] at hd
  exact String.ext (List.append_cancel_left hd)

/-- No action row of the keyboard coincides with the synthetic Run-All row:
equality of the callback tokens would force the action key to be `all`,
whose button text starts with `a` (or is 60 characters when truncated), not
`Run All Actions`. -/
lemma actionRow_ne_runall (n : String) (p : String × Action) :
    actionRow n p ≠ [("Run All Actions", "deploy:action:" ++ n ++ ":all")] := by
  obtain ⟨k, act⟩ := p
  intro heq
  unfold actionRow at heq
  dsimp only at heq
  set desc := (match act.description with | some d => ": " ++ d | none => "") with hdesc
  simp only [List.cons.injEq, and_true, Prod.mk.injEq] at heq
  obtain ⟨hbt, hcb⟩ := heq
  have hsplit : "deploy:action:" ++ n ++ ":all" = ("deploy:action:" ++ n ++ ":") ++ "all" := by
    rw [String.append_assoc ("deploy:action:" ++ n) ":" "all"]
    rfl
  rw [hsplit] at hcb
  have hkey : k = "all" := string_append_left_cancel _ _ _ hcb
  rw [hkey] at hbt
  split at hbt
  · rename_i hcond
    have hl := congrArg String.length hbt
    rw [String.length_append] at hl
    have h57 : (String.mk (("all" ++ desc).data.take 57)).length = 57 := by
      show (("all" ++ desc).data.take 57).length = 57
      rw [List.length_take]
      have h60 : 60 < ("all" ++ desc).data.length := hcond
      omega
    rw [h57] at hl
    rw [show ("..." : String).length = 3 from rfl] at hl
    rw [show ("Run All Actions" : String).length = 15 from rfl] at hl
    omega
  · have hpre : "all".data <+: "Run All Actions".data :=
      ⟨desc.data, by rw [← String.data_append, hbt]⟩
    exact absurd hpre (by decide)

/-- `deploy_use_case` succeeds (and has its closed-form trace) when the
connection, the command and the group send all succeed. -/
lemma deploy_use_case_ok (b : Behavior) (srv : Server) (a : Action) (out : String)
    (hc : b.connectOk srv = true) (hs : b.sendGroupOk = true)
    (he : b.execResult srv a = .ok out) :
    deploy_use_case b srv a = ⟨deployUseCaseEvents b srv a, .ok ()⟩ := by
  unfold deploy_use_case deployUseCaseEvents
  simp [run_action_eq, hc, he, opSendGroup, hs]

/-- C3 amended: with `allowRunAll = false` the rendered action keyboard
consists only of the per-action rows and the Back row — the synthetic
Run-All entry is never offered; but a forged `all` selector submitted via
the direct command is NOT rejected: the handler resolves it to the server's
full action list and dispatches a remote command for every configured
action. -/
theorem C3_runall_hidden_but_forged_all_accepted (b : Behavior) (cfg : Config)
    (chat : Int) (mid : Nat) (n : String) :
    (∀ srv : Server, srv.allow_run_all = false →
        action_selection_buttons n srv
          = srv.actions.map (actionRow n) ++ [[("Back to Servers", "deploy:menu")]]
      ∧ [("Run All Actions", "deploy:action:" ++ n ++ ":all")] ∉ action_selection_buttons n srv)
  ∧ (∀ srv : Server, dictGet cfg.servers n = some srv → isAllowed cfg chat srv = true →
      srv.allow_run_all = false →
      b.connectOk srv = true → b.sendGroupOk = true →
      (∀ p ∈ srv.actions, ∃ out, b.execResult srv p.2 = .ok out) →
      ∀ p ∈ srv.actions,
        Event.execCmd srv p.2.command ∈ (handle_command_deploy_args b cfg chat mid [n, "all"]).events) := by
  constructor
  · intro srv h
    have heq : action_selection_buttons n srv
        = srv.actions.map (actionRow n) ++ [[("Back to Servers", "deploy:menu")]] := by
      simp [action_selection_buttons, h]
    refine ⟨heq, ?_⟩
    rw [heq]
    intro hmem
    rcases List.mem_append.mp hmem with h1 | h1
    · obtain ⟨p, hp, heqrow⟩ := List.mem_map.mp h1
      exact actionRow_ne_runall n p heqrow
    · simp only [List.mem_singleton, List.cons.injEq, and_true, Prod.mk.injEq] at h1
      exact absurd h1.1 (by decide)
  · intro srv hsrv hall hra hc hs hexec p hp
    unfold isAllowed at hall
    have hloop : (handle_command_deploy_args b cfg chat mid [n, "all"])
        = DM.forList (deploy_use_case_py b srv) (srv.actions.map (fun q => some q.2)) := by
      unfold handle_command_deploy_args
      rw [if_pos (by simp)]
      simp only [List.getD_cons_zero, List.getD_cons_succ]
      rw [hsrv]
      dsimp only
      rw [if_neg (by rw [hall]; simp)]
      rw [if_neg (by simp)]
      simp only [if_true]
    rw [hloop]
    rw [DM.forList_pure (deploy_use_case_py b srv)
      (fun oa => Option.elim oa [] (deployUseCaseEvents b srv))
      (srv.actions.map (fun q => some q.2))
      (fun oa hoa => by
        obtain ⟨q, hq, rfl⟩ := List.mem_map.mp hoa
        obtain ⟨out, hout⟩ := hexec q hq
        exact deploy_use_case_ok b srv q.2 out hc hs hout)]
    show Event.execCmd srv p.2.command
      ∈ (srv.actions.map (fun q => some q.2)).flatMap
          (fun oa => Option.elim oa [] (deployUseCaseEvents b srv))
    refine List.mem_flatMap.mpr ⟨some p.2, List.mem_map.mpr ⟨p, hp, rfl⟩, ?_⟩
    show Event.execCmd srv p.2.command ∈ deployUseCaseEvents b srv p.2
    obtain ⟨out, hout⟩ := hexec p hp
    simp [deployUseCaseEvents, hc, hout]

/-- C3 amended witness: `s` has `allow_run_all = false`, yet `/deploy s all`
dispatches `alpha`'s command remotely (and likewise each other action). -/
theorem C3_runall_hidden_but_forged_all_accepted_witness :
    Event.execCmd srvS actA.command
      ∈ (handle_command_deploy_args bOk cfgS 1 99 ["s", "all"]).events :=
  (C3_runall_hidden_but_forged_all_accepted bOk cfgS 1 99 "s").2 srvS
    (by decide) (by decide) (by decide) (by decide) (by decide)
    (fun p hp => ⟨"out-" ++ p.2.name, rfl⟩)
    ("alpha", actA) (by decide)

/-- C8: every callback token whose server part names no configured server,
and every malformed token (wrong arity or unknown variant), produces an
explicit user-visible NotFound-class response — "Server not found",
"Invalid callback data" or "Unknown action" — and the trace contains no
remote invocation; no token shape is silently ignored. -/
theorem C8_unknown_tokens_answered_no_remote (b : Behavior) (cfg : Config) (chat : Int)
    (mid : Nat) (data : String) :
    ((pySplitColon3 data).getD 1 "" = "server" → 3 ≤ (pySplitColon3 data).length →
      dictGet cfg.servers ((pySplitColon3 data).getD 2 "") = none →
      (handle_deploy_callback b cfg chat mid data).events
        = [.editText mid "Server not found" [], .answerCb none false])
  ∧ ((pySplitColon3 data).getD 1 "" = "action" → 4 ≤ (pySplitColon3 data).length →
      dictGet cfg.servers ((pySplitColon3 data).getD 2 "") = none →
      (handle_deploy_callback b cfg chat mid data).events
        = [.reply "Server not found" [], .answerCb none false])
  ∧ ((pySplitColon3 data).length < 2 →
      (handle_deploy_callback b cfg chat mid data).events
        = [.answerCb (some "Invalid callback data") true])
  ∧ (2 ≤ (pySplitColon3 data).length →
      (pySplitColon3 data).getD 1 "" ≠ "menu" →
      ¬((pySplitColon3 data).getD 1 "" = "server" ∧ 3 ≤ (pySplitColon3 data).length) →
      ¬((pySplitColon3 data).getD 1 "" = "action" ∧ 4 ≤ (pySplitColon3 data).length) →
      (handle_deploy_callback b cfg chat mid data).events
        = [.answerCb (some "Unknown action") true])
  ∧ (∀ s c, Event.execCmd s c ∈ (handle_deploy_callback b cfg chat mid data).events →
      isAllowed cfg chat s = true) := by
  refine ⟨?_, ?_, ?_, ?_, ?_⟩
  · intro h1 h3 hget
    unfold handle_deploy_callback
    dsimp only
    rw [if_neg (by omega)]
    rw [if_neg (by rw [h1]; decide)]
    rw [if_pos (by rw [h1]; simp [h3])]
    simp only [DM.bind_eq_def]
    unfold show_action_selection
    rw [hget]
    simp [DM.bind]
  · intro h1 h4 hget
    unfold handle_deploy_callback
    dsimp only
    rw [if_neg (by omega)]
    rw [if_neg (by rw [h1]; decide)]
    rw [if_neg (by rw [h1]; simp)]
    rw [if_pos (by rw [h1]; simp [h4])]
    simp only [DM.bind_eq_def]
    unfold execute_deployment
    rw [hget]
    simp [DM.bind]
  · intro h2
    unfold handle_deploy_callback
    dsimp only
    rw [if_pos h2]
    rfl
  · intro h2 hmenu hserver haction
    unfold handle_deploy_callback
    dsimp only
    rw [if_neg (by omega)]
    rw [if_neg hmenu]
    rw [if_neg (by simpa using hserver)]
    rw [if_neg (by simpa using haction)]
    rfl
  · exact fun s c h => gate_handle_deploy_callback b cfg chat mid data _ h s c rfl

/-- C8 witness: the unknown token `deploy:server:ghost` edits the menu
message to "Server not found" and answers the callback; no remote call. -/
theorem C8_unknown_tokens_answered_no_remote_witness :
    (handle_deploy_callback bOk cfgS 1 99 "deploy:server:ghost").events
      = [.editText 99 "Server not found" [], .answerCb none false] :=
  (C8_unknown_tokens_answered_no_remote bOk cfgS 1 99 "deploy:server:ghost").1
    (by decide) (by decide) (by decide)

end Maestro
